import Mathlib

/-!
Shallow embedding of the PMP (Physical Memory Protection) core of
pmp_viz/pmp_visualizer.py: the PMPEntry dataclass with its derived
properties, the region decoder get_region_bounds, the per-entry
permission check check_permission, and the priority scan performed by
visualize_pmp_entries over the ordered entry list.

Python integers are unbounded, so register values are modelled as Nat
(the spec fixes them non-negative) and access addresses and sizes as Int
(exact arithmetic, no wraparound).
-/

/-- PMP_SHIFT constant of get_region_bounds (the 2 reserved low address bits). -/
def PMP_SHIFT : Nat := 2

/-- XLEN constant of get_region_bounds (RV64 target). -/
def XLEN : Nat := 64

/-- The trailing-ones while loop in the NAPOT branch of get_region_bounds:
while the low bit of temp_addr is set, increment the count and shift right
by one. The loop operand strictly decreases, which is the termination
argument. -/
def trailingOnes (n : Nat) : Nat :=
  if h : n % 2 = 1 then trailingOnes (n / 2) + 1 else 0
termination_by n
decreasing_by omega

/-- The PMPEntry dataclass: raw address register and configuration byte. -/
structure PMPEntry where
  addr : Nat
  cfg : Nat
deriving DecidableEq, Repr

namespace PMPEntry

/-- Property readable: R bit (bit 0) of cfg. -/
def readable (e : PMPEntry) : Bool := e.cfg &&& 0x01 != 0

/-- Property writable: W bit (bit 1) of cfg. -/
def writable (e : PMPEntry) : Bool := e.cfg &&& 0x02 != 0

/-- Property executable: X bit (bit 2) of cfg. -/
def executable (e : PMPEntry) : Bool := e.cfg &&& 0x04 != 0

/-- Property address_matching: the A field, bits 4:3 of cfg. -/
def address_matching (e : PMPEntry) : Nat := (e.cfg >>> 3) &&& 0x03

/-- Property locked: L bit (bit 7) of cfg. -/
def locked (e : PMPEntry) : Bool := e.cfg &&& 0x80 != 0

/-- get_region_bounds: decode the entry into its half-open byte range,
given the optional previous raw address register (used only by TOR). -/
def get_region_bounds (e : PMPEntry) (prev_addr : Option Nat) : Nat × Nat :=
  if e.address_matching = 0 then  -- OFF
    (0, 0)
  else if e.address_matching = 1 then  -- TOR
    match prev_addr with
    | none => (0, e.addr <<< PMP_SHIFT)
    | some p => (p <<< PMP_SHIFT, e.addr <<< PMP_SHIFT)
  else if e.address_matching = 2 then  -- NA4
    (e.addr <<< PMP_SHIFT, (e.addr <<< PMP_SHIFT) + 4)
  else  -- NAPOT
    let encoded_addr := e.addr
    let trailing_ones := trailingOnes encoded_addr
    let log2len := trailing_ones + PMP_SHIFT + 3
    if log2len = PMP_SHIFT then
      (encoded_addr <<< PMP_SHIFT, (encoded_addr <<< PMP_SHIFT) + 4)
    else if log2len = XLEN then
      (0, (1 <<< XLEN) - 1)
    else
      let base_addr := (encoded_addr >>> trailing_ones) <<< (trailing_ones + PMP_SHIFT)
      (base_addr, base_addr + (1 <<< log2len))

/-- The containment test inside check_permission: with a size, the whole
access range must fall inside the region; without one, a point test. -/
def containsAccess (start stop : Int) (access_addr : Int) (access_size : Option Int) : Bool :=
  match access_size with
  | some s => decide (start ≤ access_addr ∧ access_addr + s - 1 < stop)
  | none => decide (start ≤ access_addr ∧ access_addr < stop)

/-- The permission list built at the end of check_permission, joined with
commas (the string "None" when the list is empty). -/
def permString (e : PMPEntry) : String :=
  let perms := (if e.readable then ["R"] else []) ++
               (if e.writable then ["W"] else []) ++
               (if e.executable then ["X"] else [])
  if perms = [] then "None" else String.intercalate "," perms

/-- check_permission: the region is computed with prev_addr = None (exactly
as in the source), the access must be contained, and the requested access
type must be permitted; on success the full permission string is returned. -/
def check_permission (e : PMPEntry) (access_addr : Int) (access_size : Option Int)
    (access_type : String) : Option String :=
  let b := e.get_region_bounds none
  if ¬ containsAccess (b.1 : Int) (b.2 : Int) access_addr access_size then none
  else if access_type == "R" && !e.readable then none
  else if access_type == "W" && !e.writable then none
  else if access_type == "X" && !e.executable then none
  else some e.permString

end PMPEntry

/-- The priority scan of visualize_pmp_entries, carrying the running index:
the first entry whose check_permission result is not None wins and the scan
stops there. -/
def resolveAccessAux (access_addr : Int) (access_size : Option Int) (access_type : String) :
    List PMPEntry → Nat → Option (Nat × String)
  | [], _ => none
  | e :: rest, i =>
    match e.check_permission access_addr access_size access_type with
    | some p => some (i, p)
    | none => resolveAccessAux access_addr access_size access_type rest (i + 1)

/-- The permission resolution of visualize_pmp_entries: scan the entries in
index order and return the first matching index with its permission string,
or none when no entry matches. -/
def resolveAccess (entries : List PMPEntry) (access_addr : Int) (access_size : Option Int)
    (access_type : String) : Option (Nat × String) :=
  resolveAccessAux access_addr access_size access_type entries 0

/-- The body of check_permission with the region bounds made an explicit
argument; check_permission is definitionally checkAgainst applied to the
bounds computed with prev_addr = None. Used to evaluate check_permission on
concrete NAPOT entries once their bounds are known. -/
def checkAgainst (e : PMPEntry) (b : Nat × Nat) (access_addr : Int) (access_size : Option Int)
    (access_type : String) : Option String :=
  if ¬ PMPEntry.containsAccess (b.1 : Int) (b.2 : Int) access_addr access_size then none
  else if access_type == "R" && !e.readable then none
  else if access_type == "W" && !e.writable then none
  else if access_type == "X" && !e.executable then none
  else some e.permString

/-- The NAPOT arm of get_region_bounds without the size-4 branch: the
full-address-space case when log2len reaches XLEN, otherwise the base
obtained by clearing the trailing ones and shifting, plus the size. -/
def napotBounds (addr : Nat) : Nat × Nat :=
  let trailing_ones := trailingOnes addr
  let log2len := trailing_ones + PMP_SHIFT + 3
  if log2len = XLEN then
    (0, (1 <<< XLEN) - 1)
  else
    let base_addr := (addr >>> trailing_ones) <<< (trailing_ones + PMP_SHIFT)
    (base_addr, base_addr + (1 <<< log2len))

/-- check_permission unfolds to checkAgainst at the bounds computed with
prev_addr = None. -/
theorem check_permission_eq (e : PMPEntry) (a : Int) (s : Option Int) (ty : String) :
    e.check_permission a s ty = checkAgainst e (e.get_region_bounds none) a s ty := rfl

/-- One step of the priority scan: an entry whose check_permission result is
None is skipped and the scan continues with the next index. -/
theorem resolveAccessAux_cons_none {a : Int} {s : Option Int} {ty : String} {e : PMPEntry}
    {rest : List PMPEntry} {i : Nat} (h : e.check_permission a s ty = none) :
    resolveAccessAux a s ty (e :: rest) i = resolveAccessAux a s ty rest (i + 1) := by
  show (match e.check_permission a s ty with
    | some p => some (i, p)
    | none => resolveAccessAux a s ty rest (i + 1)) = resolveAccessAux a s ty rest (i + 1)
  rw [h]

/-- One step of the priority scan: an entry whose check_permission result is
a permission string ends the scan at the current index. -/
theorem resolveAccessAux_cons_some {a : Int} {s : Option Int} {ty : String} {e : PMPEntry}
    {rest : List PMPEntry} {i : Nat} {p : String} (h : e.check_permission a s ty = some p) :
    resolveAccessAux a s ty (e :: rest) i = some (i, p) := by
  show (match e.check_permission a s ty with
    | some p => some (i, p)
    | none => resolveAccessAux a s ty rest (i + 1)) = some (i, p)
  rw [h]

/-- Evaluation rule for the generic NAPOT arm of get_region_bounds: when the
trailing-ones count is t and t + PMP_SHIFT + 3 is not XLEN, the region is the
cleared-and-shifted base with size 2 ^ (t + PMP_SHIFT + 3). -/
theorem get_region_bounds_napot (e : PMPEntry) (prev : Option Nat) (t : Nat)
    (h : e.address_matching = 3) (ht : trailingOnes e.addr = t)
    (h64 : t + PMP_SHIFT + 3 ≠ XLEN) :
    e.get_region_bounds prev =
      ((e.addr >>> t) <<< (t + PMP_SHIFT),
       (e.addr >>> t) <<< (t + PMP_SHIFT) + (1 <<< (t + PMP_SHIFT + 3))) := by
  have h2 : t + PMP_SHIFT + 3 ≠ PMP_SHIFT := by simp only [PMP_SHIFT]; omega
  unfold PMPEntry.get_region_bounds
  rw [h]
  norm_num [ht, h2, h64]

/-- In NAPOT mode get_region_bounds agrees with napotBounds: the size-4
branch never contributes. -/
theorem get_region_bounds_napot_mode (e : PMPEntry) (prev : Option Nat)
    (h : e.address_matching = 3) :
    e.get_region_bounds prev = napotBounds e.addr := by
  have h2 : trailingOnes e.addr + PMP_SHIFT + 3 ≠ PMP_SHIFT := by
    simp only [PMP_SHIFT]; omega
  unfold PMPEntry.get_region_bounds napotBounds
  rw [h]
  norm_num [h2]

/-- C1: the resolver does NOT stop at the first containing entry when that
entry denies the requested type. Entry 0 (NA4, no R) covers the 4-byte range
at 0x1000 and contains the access at 0x1000, so per the claim the resolution
should be entry 0 with a denial; the code instead skips it (check_permission
returns None) and grants through entry 1 (NAPOT over 0x1000..0x2000 with R),
returning match index 1 with permission R. -/
theorem C1_first_containing_entry_not_terminal_eval :
    (PMPEntry.mk 0x400 0x10).get_region_bounds none = (0x1000, 0x1004) ∧
    PMPEntry.containsAccess 0x1000 0x1004 0x1000 none = true ∧
    (PMPEntry.mk 0x400 0x10).check_permission 0x1000 none "R" = none ∧
    (PMPEntry.mk 0x47F 0x19).get_region_bounds none = (0x1000, 0x2000) ∧
    resolveAccess [PMPEntry.mk 0x400 0x10, PMPEntry.mk 0x47F 0x19] 0x1000 none "R" =
      some (1, "R") := by
  have h1 : (PMPEntry.mk 0x47F 0x19).get_region_bounds none = (0x1000, 0x2000) := by
    rw [get_region_bounds_napot _ none 7 (by decide) (by simp [trailingOnes]) (by decide)]
    decide
  have hc1 : (PMPEntry.mk 0x47F 0x19).check_permission 0x1000 none "R" = some "R" := by
    rw [check_permission_eq, h1]; decide
  have hc0 : (PMPEntry.mk 0x400 0x10).check_permission 0x1000 none "R" = none := by decide
  refine ⟨by decide, by decide, hc0, h1, ?_⟩
  unfold resolveAccess
  rw [resolveAccessAux_cons_none hc0, resolveAccessAux_cons_some hc1]

/-- C2: the resolver does NOT supply the previous raw address register when
it tests containment for a TOR entry at index 1: check_permission computes
the bounds with prev_addr = None. With entry 0 a TOR entry at raw address
0x400 (no permissions) and entry 1 a TOR entry at raw address 0x800 with R,
the region of entry 1 per the claim is 0x1000..0x2000, which does not
contain the access at 0x500; the code nevertheless resolves the access to
entry 1 with a grant, because it checks entry 1 against the region
0..0x2000. -/
theorem C2_resolver_ignores_prev_addr_eval :
    (PMPEntry.mk 0x800 0x09).get_region_bounds (some 0x400) = (0x1000, 0x2000) ∧
    (PMPEntry.mk 0x800 0x09).get_region_bounds none = (0, 0x2000) ∧
    PMPEntry.containsAccess 0x1000 0x2000 0x500 none = false ∧
    resolveAccess [PMPEntry.mk 0x400 0x08, PMPEntry.mk 0x800 0x09] 0x500 none "R" =
      some (1, "R") := by
  decide

/-- C3 counterexample: the configuration byte 0x1D decodes to mode
NAPOT (A field 3), not TOR, so the single entry of the scenario has region
0x80000000..0x80000020, not 0..0x80000000, and the access at 0x1000 with
type R matches no entry at all. -/
theorem C3_cfg0x1D_cex :
    (PMPEntry.mk 0x20000000 0x1D).address_matching = 3 ∧
    (PMPEntry.mk 0x20000000 0x1D).get_region_bounds none = (0x80000000, 0x80000020) ∧
    ¬ (PMPEntry.mk 0x20000000 0x1D).get_region_bounds none = (0, 0x80000000) ∧
    resolveAccess [PMPEntry.mk 0x20000000 0x1D] 0x1000 none "R" = none := by
  have hb : (PMPEntry.mk 0x20000000 0x1D).get_region_bounds none =
      (0x80000000, 0x80000020) := by
    rw [get_region_bounds_napot _ none 0 (by decide) (by simp [trailingOnes]) (by decide)]
    decide
  have hc : (PMPEntry.mk 0x20000000 0x1D).check_permission 0x1000 none "R" = none := by
    rw [check_permission_eq, hb]; decide
  refine ⟨by decide, hb, by rw [hb]; decide, ?_⟩
  unfold resolveAccess
  rw [resolveAccessAux_cons_none hc]
  rfl

/-- C3 amended: with the configuration byte 0x0F, which is the TOR,R,W,X
encoding the scenario describes, entry 0 (no predecessor) decodes to the
region 0..0x80000000 and the access at 0x1000 with type R resolves to match
index 0 with the full permission string R,W,X. -/
theorem C3_tor_scenario_amended :
    (PMPEntry.mk 0x20000000 0x0F).address_matching = 1 ∧
    (PMPEntry.mk 0x20000000 0x0F).get_region_bounds none = (0, 0x80000000) ∧
    resolveAccess [PMPEntry.mk 0x20000000 0x0F] 0x1000 none "R" = some (0, "R,W,X") := by
  decide

/-- C4: a NAPOT region produced outside the size-4 branch need not be
aligned to its size. The NAPOT entry with address register 2 has zero
trailing ones, so the code computes size 2 ^ 5 = 32 and base 2 <<< 2 = 8:
the region is 8..40, whose size 32 is a power of two but whose start 8 is
not a multiple of 32. -/
theorem C4_napot_misaligned_eval :
    (PMPEntry.mk 2 0x18).address_matching = 3 ∧
    trailingOnes 2 = 0 ∧
    (PMPEntry.mk 2 0x18).get_region_bounds none = (8, 40) ∧
    (∃ k : Nat, 40 - 8 = 2 ^ k) ∧
    ¬ (40 - 8 : Nat) ∣ 8 := by
  have hb : (PMPEntry.mk 2 0x18).get_region_bounds none = (8, 40) := by
    rw [get_region_bounds_napot _ none 0 (by decide) (by simp [trailingOnes]) (by decide)]
    decide
  exact ⟨by decide, by simp [trailingOnes], hb, ⟨5, by norm_num⟩, by norm_num⟩

/-- C5 counterexample: the NAPOT entry with address register 2 has zero
trailing ones, yet the decoder returns the 32-byte region 8..40, not the
4-byte region (2 <<< 2, 2 <<< 2 + 4) = (8, 12) the claim states. -/
theorem C5_t0_not_size4_cex :
    trailingOnes 2 = 0 ∧
    (PMPEntry.mk 2 0x18).address_matching = 3 ∧
    (PMPEntry.mk 2 0x18).get_region_bounds none = (8, 40) ∧
    ¬ (PMPEntry.mk 2 0x18).get_region_bounds none = (2 <<< 2, (2 <<< 2) + 4) := by
  have hb : (PMPEntry.mk 2 0x18).get_region_bounds none = (8, 40) := by
    rw [get_region_bounds_napot _ none 0 (by decide) (by simp [trailingOnes]) (by decide)]
    decide
  exact ⟨by simp [trailingOnes], by decide, hb, by rw [hb]; decide⟩

/-- C5 amended: for every NAPOT-mode entry whose address register has zero
trailing one-bits, the decoder returns the 32-byte region
(address_register <<< 2, address_register <<< 2 + 32): with t = 0 the code
computes log2len = 5, so the size-4 branch is never taken. -/
theorem C5_t0_region (e : PMPEntry) (prev : Option Nat) (h : e.address_matching = 3)
    (ht : trailingOnes e.addr = 0) :
    e.get_region_bounds prev = (e.addr <<< 2, (e.addr <<< 2) + 32) := by
  rw [get_region_bounds_napot e prev 0 h ht (by decide)]
  simp [PMP_SHIFT]

/-- C5 witness: the amended statement evaluated at the NAPOT entry with
address register 2, whose region is 8..40. -/
theorem C5_t0_region_witness :
    (PMPEntry.mk 2 0x18).address_matching = 3 ∧
    trailingOnes 2 = 0 ∧
    (PMPEntry.mk 2 0x18).get_region_bounds none = (8, 40) :=
  ⟨by decide, by simp [trailingOnes],
    (C5_t0_region (PMPEntry.mk 2 0x18) none (by decide) (by simp [trailingOnes])).trans
      (by decide)⟩

/-- C6: the containment test of check_permission is exactly the all-or-
nothing range test: with a size s the access is contained precisely when
start is at most the address and address + s - 1 is below the end, without
a size precisely when the address lies in the half-open region; and an
access of size greater than 1 starting one byte before the region end is
never matched by check_permission. -/
theorem C6_containment_characterization (e : PMPEntry) (a s : Int) (ty : String) :
    (PMPEntry.containsAccess ((e.get_region_bounds none).1 : Int)
        ((e.get_region_bounds none).2 : Int) a (some s) = true ↔
      ((e.get_region_bounds none).1 : Int) ≤ a ∧
        a + s - 1 < ((e.get_region_bounds none).2 : Int)) ∧
    (PMPEntry.containsAccess ((e.get_region_bounds none).1 : Int)
        ((e.get_region_bounds none).2 : Int) a none = true ↔
      ((e.get_region_bounds none).1 : Int) ≤ a ∧
        a < ((e.get_region_bounds none).2 : Int)) ∧
    (1 < s →
      e.check_permission (((e.get_region_bounds none).2 : Int) - 1) (some s) ty = none) := by
  refine ⟨by simp [PMPEntry.containsAccess], by simp [PMPEntry.containsAccess], fun hs => ?_⟩
  have hcont : PMPEntry.containsAccess ((e.get_region_bounds none).1 : Int)
      ((e.get_region_bounds none).2 : Int)
      (((e.get_region_bounds none).2 : Int) - 1) (some s) = false := by
    simp only [PMPEntry.containsAccess, decide_eq_false_iff_not]
    intro hand
    omega
  rw [check_permission_eq]
  unfold checkAgainst
  rw [hcont]
  simp

/-- C6 witness: the third part of the characterization applied to the NA4
entry with address register 0x400 (region 0x1000..0x1004) and a size-2
access starting at 0x1003. -/
theorem C6_containment_witness :
    1 < (2 : Int) ∧
    (PMPEntry.mk 0x400 0x11).check_permission
      ((((PMPEntry.mk 0x400 0x11).get_region_bounds none).2 : Int) - 1) (some 2) "R" =
      none :=
  ⟨by norm_num,
    (C6_containment_characterization (PMPEntry.mk 0x400 0x11) 0 2 "R").2.2 (by norm_num)⟩

/-- C7: absence of a size and size 0 are distinct inputs to
check_permission: for the NA4 entry with address register 0x400 and region
0x1000..0x1004, the size-0 access at address 0x1004 is contained (and
granted R), while the size-less point check at the same address is not; and
the size-0 end computation address + 0 - 1 equals address - 1 exactly over
the integers, with no wraparound. -/
theorem C7_size_zero_distinct :
    (PMPEntry.mk 0x400 0x11).check_permission 0x1004 (some 0) "R" = some "R" ∧
    (PMPEntry.mk 0x400 0x11).check_permission 0x1004 none "R" = none ∧
    ∀ a : Int, a + 0 - 1 = a - 1 := by
  exact ⟨by decide, by decide, fun a => by ring⟩

/-- C8: the decoder is total: the operand of the trailing-ones loop
strictly decreases at every iteration (an odd operand is halved), every
entry and previous-address input yields a well-defined pair of bounds, and
an entry in OFF mode always decodes to the degenerate region (0, 0). -/
theorem C8_decoder_total :
    (∀ n : Nat, n % 2 = 1 → n / 2 < n) ∧
    (∀ (e : PMPEntry) (prev : Option Nat), ∃ b : Nat × Nat, e.get_region_bounds prev = b) ∧
    (∀ (e : PMPEntry) (prev : Option Nat), e.address_matching = 0 →
      e.get_region_bounds prev = (0, 0)) := by
  refine ⟨fun n h => by omega, fun e prev => ⟨_, rfl⟩, fun e prev h => ?_⟩
  unfold PMPEntry.get_region_bounds
  rw [h]
  simp

/-- C8 witness: the loop step at operand 3 and the OFF decode of the entry
with address register 5 and configuration byte 0. -/
theorem C8_decoder_total_witness :
    (3 : Nat) % 2 = 1 ∧ (3 : Nat) / 2 < 3 ∧
    (PMPEntry.mk 5 0).address_matching = 0 ∧
    (PMPEntry.mk 5 0).get_region_bounds none = (0, 0) :=
  ⟨by decide, C8_decoder_total.1 3 (by decide), by decide,
    C8_decoder_total.2.2 (PMPEntry.mk 5 0) none (by decide)⟩

/-- C9: every derived operation of a PMPEntry is a pure function of the two
fields addr and cfg together with its explicit arguments: two entries with
equal fields give equal results for readable, writable, executable, locked,
address_matching, get_region_bounds at every previous address, and
check_permission at every access. (Immutability itself is intrinsic here:
the embedding of the dataclass has no mutating operation.) -/
theorem C9_entry_pure (e₁ e₂ : PMPEntry) (h1 : e₁.addr = e₂.addr) (h2 : e₁.cfg = e₂.cfg) :
    e₁.readable = e₂.readable ∧
    e₁.writable = e₂.writable ∧
    e₁.executable = e₂.executable ∧
    e₁.locked = e₂.locked ∧
    e₁.address_matching = e₂.address_matching ∧
    (∀ prev : Option Nat, e₁.get_region_bounds prev = e₂.get_region_bounds prev) ∧
    (∀ (a : Int) (s : Option Int) (ty : String),
      e₁.check_permission a s ty = e₂.check_permission a s ty) := by
  obtain ⟨a1, c1⟩ := e₁
  obtain ⟨a2, c2⟩ := e₂
  obtain rfl : a1 = a2 := h1
  obtain rfl : c1 = c2 := h2
  exact ⟨rfl, rfl, rfl, rfl, rfl, fun _ => rfl, fun _ _ _ => rfl⟩

/-- C9 witness: the purity statement applied to two syntactically equal
entries. -/
theorem C9_entry_pure_witness :
    (PMPEntry.mk 0x400 0x11).addr = (PMPEntry.mk 0x400 0x11).addr ∧
    (PMPEntry.mk 0x400 0x11).cfg = (PMPEntry.mk 0x400 0x11).cfg ∧
    ((PMPEntry.mk 0x400 0x11).readable = (PMPEntry.mk 0x400 0x11).readable ∧
     (PMPEntry.mk 0x400 0x11).writable = (PMPEntry.mk 0x400 0x11).writable ∧
     (PMPEntry.mk 0x400 0x11).executable = (PMPEntry.mk 0x400 0x11).executable ∧
     (PMPEntry.mk 0x400 0x11).locked = (PMPEntry.mk 0x400 0x11).locked ∧
     (PMPEntry.mk 0x400 0x11).address_matching = (PMPEntry.mk 0x400 0x11).address_matching ∧
     (∀ prev : Option Nat, (PMPEntry.mk 0x400 0x11).get_region_bounds prev =
       (PMPEntry.mk 0x400 0x11).get_region_bounds prev) ∧
     (∀ (a : Int) (s : Option Int) (ty : String),
       (PMPEntry.mk 0x400 0x11).check_permission a s ty =
         (PMPEntry.mk 0x400 0x11).check_permission a s ty)) :=
  ⟨rfl, rfl, C9_entry_pure (PMPEntry.mk 0x400 0x11) (PMPEntry.mk 0x400 0x11) rfl rfl⟩

/-- C10: the size-4 branch of the NAPOT arm is unreachable: for every
address register the computed log2len = trailingOnes + PMP_SHIFT + 3 is at
least 5 and so never equals PMP_SHIFT, and consequently every NAPOT-mode
decode equals napotBounds, the NAPOT computation without that branch. -/
theorem C10_size4_branch_unreachable :
    (∀ addr : Nat, trailingOnes addr + PMP_SHIFT + 3 ≠ PMP_SHIFT) ∧
    (∀ (e : PMPEntry) (prev : Option Nat), e.address_matching = 3 →
      e.get_region_bounds prev = napotBounds e.addr) :=
  ⟨fun addr => by simp only [PMP_SHIFT]; omega,
   fun e prev h => get_region_bounds_napot_mode e prev h⟩

/-- C10 witness: the unreachability facts evaluated at the NAPOT entry with
address register 2. -/
theorem C10_size4_branch_unreachable_witness :
    trailingOnes 2 + PMP_SHIFT + 3 ≠ PMP_SHIFT ∧
    (PMPEntry.mk 2 0x18).address_matching = 3 ∧
    (PMPEntry.mk 2 0x18).get_region_bounds none = napotBounds 2 :=
  ⟨C10_size4_branch_unreachable.1 2, by decide,
    C10_size4_branch_unreachable.2 (PMPEntry.mk 2 0x18) none (by decide)⟩
